import Mathlib

/- Verification development for the scan-can OBD-II diagnostic tool.

   The definitions below form a shallow embedding of `src/main.py`:
   * the DTC codec (`_decode_dtc_pair`, `decode_obd_dtc`,
     `decode_freeze_frame_dtc`),
   * the Mode 01 PID registry (`PID_DEFS`, `decode_pid_value`,
     `parse_pid_list`),
   * the bounded-timeout exchange (`isotp_request`),
   * the live telemetry loop's CSV emission (`live_read_loop`),
   * the DTC log writer (`log_dtcs`),
   * and the control flow of `main`.

   Conventions: Python byte values are `ℕ` (always < 256 where it
   matters, stated as hypotheses); Python numbers (int/float) are `ℚ`;
   fallible operations return `Option`; wall-clock time is idealized so
   that each iteration of the exchange's poll loop costs exactly the
   10 ms sleep it contains. -/

namespace ScanCan

/- ===== DTC codec (src/main.py, lines 151-194) ===== -/

/-- Embedding of the dict `sys_code_map = {0: "P", 1: "C", 2: "B", 3: "U"}`.
    The index it is applied to is `(b1 & 0xC0) >> 6`, which is always ≤ 3,
    so the lookup never faults; the catch-all arm is the key-3 entry. -/
def sys_code_map (n : ℕ) : String :=
  match n with
  | 0 => "P"
  | 1 => "C"
  | 2 => "B"
  | _ => "U"

/-- Embedding of `_decode_dtc_pair(b1, b2)`: category letter from the top
    two bits of `b1`, then the four bit fields rendered in decimal
    (Python f-string rendering of an int is decimal, as is `Nat.repr`). -/
def decode_dtc_pair (b1 b2 : ℕ) : String :=
  sys_code_map ((b1 &&& 0xC0) >>> 6)
    ++ Nat.repr ((b1 &&& 0x30) >>> 4)
    ++ Nat.repr (b1 &&& 0x0F)
    ++ Nat.repr ((b2 &&& 0xF0) >>> 4)
    ++ Nat.repr (b2 &&& 0x0F)

/-- Helper for the pair-consuming loop of `decode_obd_dtc`: the source
    iterates `i` over `range(0, len(payload), 2)`, breaks on a trailing
    unpaired byte, skips `(0, 0)` pairs, and appends one decoded code per
    remaining pair. -/
def decode_pairs : List ℕ → List String
  | b1 :: b2 :: rest =>
      (if b1 = 0 ∧ b2 = 0 then [] else [decode_dtc_pair b1 b2])
        ++ decode_pairs rest
  | _ => []

/-- Embedding of `decode_obd_dtc(data_bytes)` (Modes 03 and 07). -/
def decode_obd_dtc (data_bytes : List ℕ) : List String :=
  match data_bytes with
  | [] => []
  | b0 :: payload =>
      if b0 = 0x43 ∨ b0 = 0x47 then decode_pairs payload else []

/-- Embedding of `decode_freeze_frame_dtc(data_bytes)` (Mode 02 PID 0x02). -/
def decode_freeze_frame_dtc (data_bytes : List ℕ) : List String :=
  match data_bytes with
  | m :: p :: b1 :: b2 :: _ =>
      if m ≠ 0x42 ∨ p ≠ 0x02 then []
      else if b1 = 0 ∧ b2 = 0 then []
      else [decode_dtc_pair b1 b2]
  | _ => []

/- Claim-side vocabulary for the codec claims. -/

/-- Formalization of "matches the pattern [PCBU]\d4": one category
    letter followed by exactly four decimal digit characters. -/
def matchesDTCPattern (s : String) : Bool :=
  (s.data.head?.map
      (fun c => c == 'P' || c == 'C' || c == 'B' || c == 'U')).getD false
    && s.data.tail.all Char.isDigit && s.data.length == 5

/-- Category letter demanded by the spec table: top two bits of `b1`
    (for `b1 < 256` those are `b1 / 64`) select P, C, B or U. -/
def specCategoryChar (b1 : ℕ) : Char :=
  if b1 / 64 = 0 then 'P'
  else if b1 / 64 = 1 then 'C'
  else if b1 / 64 = 2 then 'B'
  else 'U'

/-- Claim-side pairing: consume a byte list two bytes at a time,
    dropping a trailing unpaired byte. -/
def pairsOf : List ℕ → List (ℕ × ℕ)
  | b1 :: b2 :: rest => (b1, b2) :: pairsOf rest
  | _ => []

/- ===== PID registry (src/main.py, lines 232-333) ===== -/

/-- Decode lambda of `coolant` (PID 0x05): `(d[0] - 40) if len(d) >= 1`. -/
def coolant_decode (d : List ℕ) : Option ℚ :=
  if 1 ≤ d.length then some ((d.getD 0 0 : ℚ) - 40) else none

/-- Decode lambda of `rpm` (PID 0x0C): `((d[0] << 8) | d[1]) / 4`. -/
def rpm_decode (d : List ℕ) : Option ℚ :=
  if 2 ≤ d.length then some (((d.getD 0 0 <<< 8 ||| d.getD 1 0 : ℕ) : ℚ) / 4)
  else none

/-- Decode lambda of `speed` (PID 0x0D): `d[0]`. -/
def speed_decode (d : List ℕ) : Option ℚ :=
  if 1 ≤ d.length then some (d.getD 0 0 : ℚ) else none

/-- Decode lambda of `intake_temp` (PID 0x0F): `d[0] - 40`. -/
def intake_temp_decode (d : List ℕ) : Option ℚ :=
  if 1 ≤ d.length then some ((d.getD 0 0 : ℚ) - 40) else none

/-- Decode lambda of `maf` (PID 0x10): `((d[0] << 8) | d[1]) / 100`. -/
def maf_decode (d : List ℕ) : Option ℚ :=
  if 2 ≤ d.length then some (((d.getD 0 0 <<< 8 ||| d.getD 1 0 : ℕ) : ℚ) / 100)
  else none

/-- Decode lambda of `throttle` (PID 0x11): `d[0] * 100 / 255`. -/
def throttle_decode (d : List ℕ) : Option ℚ :=
  if 1 ≤ d.length then some ((d.getD 0 0 : ℚ) * 100 / 255) else none

/-- Decode lambda of `stft1` (PID 0x06): `(d[0] - 128) / 1.28`. -/
def stft1_decode (d : List ℕ) : Option ℚ :=
  if 1 ≤ d.length then some (((d.getD 0 0 : ℚ) - 128) / 1.28) else none

/-- Decode lambda of `ltft1` (PID 0x07): `(d[0] - 128) / 1.28`. -/
def ltft1_decode (d : List ℕ) : Option ℚ :=
  if 1 ≤ d.length then some (((d.getD 0 0 : ℚ) - 128) / 1.28) else none

/-- Value type of one `PID_DEFS` entry: `(pid, decode_fn, unit)`. -/
def PIDDef : Type := ℕ × (List ℕ → Option ℚ) × String

/-- Embedding of the `PID_DEFS` dict, in source order, as an association
    list (Python dicts preserve insertion order). -/
def PID_DEFS : List (String × PIDDef) :=
  [("coolant", (0x05, coolant_decode, "°C")),
   ("rpm", (0x0C, rpm_decode, "rpm")),
   ("speed", (0x0D, speed_decode, "km/h")),
   ("intake_temp", (0x0F, intake_temp_decode, "°C")),
   ("maf", (0x10, maf_decode, "g/s")),
   ("throttle", (0x11, throttle_decode, "%")),
   ("stft1", (0x06, stft1_decode, "%")),
   ("ltft1", (0x07, ltft1_decode, "%"))]

/-- Embedding of `decode_pid_value(label, raw)`. The source guards the
    decode call with `try/except → None`; the embedded decode functions
    are total, so the only `none` outcomes are the ones they return
    themselves and the unknown-label case. -/
def decode_pid_value (label : String) (raw : List ℕ) : Option ℚ :=
  match PID_DEFS.lookup label with
  | some (_, fn, _) => fn raw
  | none => none

/- ===== PID list parsing (src/main.py, lines 286-303) ===== -/

/-- Python `str.split(',')` at the character-list level. -/
def py_split_comma_data (l : List Char) : List (List Char) :=
  match l with
  | [] => [[]]
  | c :: rest =>
      let r := py_split_comma_data rest
      if c = ',' then [] :: r
      else
        match r with
        | [] => [[c]]
        | x :: xs => (c :: x) :: xs

/-- Python's `str.strip()` whitespace set, restricted to the ASCII
    whitespace characters that can appear in a command-line PID list. -/
def py_is_space (c : Char) : Bool :=
  c = ' ' ∨ c = '\t' ∨ c = '\n' ∨ c = '\r'

/-- Python `str.strip()`: drop leading and trailing whitespace. -/
def py_strip (s : String) : String :=
  String.mk (((s.data.dropWhile py_is_space).reverse.dropWhile
    py_is_space).reverse)

/-- Python `str.lower()` on the ASCII labels involved here. -/
def py_lower (s : String) : String :=
  String.mk (s.data.map Char.toLower)

/-- Value of one hexadecimal digit character. -/
def hex_digit_val (c : Char) : Option ℕ :=
  if '0' ≤ c ∧ c ≤ '9' then some (c.toNat - 48)
  else if 'a' ≤ c ∧ c ≤ 'f' then some (c.toNat - 87)
  else if 'A' ≤ c ∧ c ≤ 'F' then some (c.toNat - 55)
  else none

/-- Digit-string value in a given base; `none` on an empty string or an
    out-of-range character. -/
def digits_val (base : ℕ) (l : List Char) : Option ℕ :=
  if l = [] then none
  else
    l.foldl (fun acc c =>
      match acc, hex_digit_val c with
      | some a, some d => if d < base then some (a * base + d) else none
      | _, _ => none) (some 0)

/-- Model of the Python builtin `int(it, 0)` on the literal forms the
    tool documents for `--pids` (plain decimal, or hex with a `0x`/`0X`
    prefix); other Python literal forms are out of scope and map to
    `none`, which only narrows the set of inputs the theorems below
    quantify over. -/
def int_of_string (s : String) : Option ℕ :=
  match s.data with
  | '0' :: 'x' :: rest => digits_val 16 rest
  | '0' :: 'X' :: rest => digits_val 16 rest
  | l => digits_val 10 l

/-- Label generated for a numeric-literal PID: `f"pid_0x{pid:02X}"`,
    i.e. upper-case hex, zero-padded to at least two digits. -/
def pid_label (pid : ℕ) : String :=
  let s := (Nat.toDigits 16 pid).map Char.toUpper
  "pid_0x" ++ String.mk (List.replicate (2 - s.length) '0' ++ s)

/-- Per-item body of the loop in `parse_pid_list`: a known label
    resolves through the registry; otherwise the item is parsed as a
    numeric literal; otherwise it is dropped (with a logged warning). -/
def parse_pid_item (it : String) : Option (String × ℕ × String) :=
  let key := py_lower it
  match PID_DEFS.lookup key with
  | some (pid, _, unit) => some (key, pid, unit)
  | none =>
      match int_of_string it with
      | some pid => some (pid_label pid, pid, "")
      | none => none

/-- Embedding of `parse_pid_list(pid_list_str)`. -/
def parse_pid_list (pid_list_str : String) : List (String × ℕ × String) :=
  let items := ((py_split_comma_data pid_list_str.data).map
      (fun l => py_strip (String.mk l))).filter (fun x => x ≠ "")
  items.filterMap parse_pid_item

/- ===== Bounded-timeout exchange (src/main.py, lines 216-225) ===== -/

/-- Transport collaborator of `isotp_request`: `process` is
    `stack.process()`, `available` is `stack.available()`, `recv` is
    `stack.recv()` (returning the reassembled payload; the post-receive
    state is irrelevant to the caller, which returns immediately). -/
structure Transport (σ : Type) where
  process : σ → σ
  available : σ → Bool
  recv : σ → List ℕ

/-- Observable transport-facing events of one `isotp_request` call. -/
inductive TEvent where
  | send (payload : List ℕ)
  | tick
  | recvEv (resp : List ℕ)
deriving DecidableEq

/-- Predicate picking out send events. -/
def TEvent.isSend : TEvent → Bool
  | TEvent.send _ => true
  | _ => false

/-- Predicate picking out tick (`stack.process()`) events. -/
def TEvent.isTick : TEvent → Bool
  | TEvent.tick => true
  | _ => false

/-- Number of iterations the `while time.time() - t0 < timeout` loop
    executes under the idealized clock: the loop test before iteration
    `k` (0-based) sees elapsed time `k/100` seconds (each iteration
    sleeps 10 ms), so the body runs for exactly the `k` with
    `k / 100 < timeout`, i.e. `⌈100·timeout⌉` times (0 when the timeout
    is not positive).  Spelled out on the numerator and denominator of
    the rational so that it evaluates by kernel reduction. -/
def numIters (timeout : ℚ) : ℕ :=
  ((100 * timeout.num + timeout.den - 1) / (timeout.den : ℤ)).toNat

/-- Body of the polling loop of `isotp_request`, with the remaining
    iteration budget as fuel: each iteration calls `stack.process()`,
    sleeps 10 ms, then returns `stack.recv()` if `stack.available()`. -/
def isotp_loop {σ : Type} (tr : Transport σ) :
    ℕ → σ → Option (List ℕ) × σ × List TEvent
  | 0, s => (none, s, [])
  | n + 1, s =>
      let s1 := tr.process s
      if tr.available s1 then
        (some (tr.recv s1), s1, [TEvent.tick, TEvent.recvEv (tr.recv s1)])
      else
        let r := isotp_loop tr n s1
        (r.1, r.2.1, TEvent.tick :: r.2.2)

/-- Embedding of `isotp_request(stack, payload, timeout)`: one
    `stack.send(payload)`, then the polling loop. -/
def isotp_request {σ : Type} (tr : Transport σ) (s : σ) (payload : List ℕ)
    (timeout : ℚ) : Option (List ℕ) × σ × List TEvent :=
  let r := isotp_loop tr (numIters timeout) s
  (r.1, r.2.1, TEvent.send payload :: r.2.2)

/- ===== Live telemetry loop, CSV emission (src/main.py, 336-383) ===== -/

/-- Fixed-two-decimal rendering modeling the f-string `.2f` conversion.
    Mathlib's `round` rounds half up where C's binary-float formatting
    rounds half to even; no claim inspects the rendered digits, only
    whether a cell is a number or `NA`. -/
def format_2f (v : ℚ) : String :=
  let cents : ℤ := round (v * 100)
  let a := cents.natAbs
  (if cents < 0 then "-" else "")
    ++ Nat.repr (a / 100) ++ "."
    ++ (if a % 100 < 10 then "0" else "") ++ Nat.repr (a % 100)

/-- Display string of one sample: `f"{val:.2f}{unit}"` when the unit is
    non-empty, `f"{val:.2f}"` otherwise, and `"NA"` for a missing
    value. -/
def display_of (val : Option ℚ) (unit : String) : String :=
  match val with
  | some v => if unit ≠ "" then format_2f v ++ unit else format_2f v
  | none => "NA"

/-- One PID's cell inside a tick of `live_read_loop`: `raw` is the
    result of `request_pid` (already `none` on timeout or malformed
    framing); the decode runs only when `raw is not None`. -/
def live_cell (label : String) (unit : String) (raw : Option (List ℕ)) :
    String :=
  display_of
    (match raw with
     | some r => decode_pid_value label r
     | none => none) unit

/-- The `values_for_csv` list built by one tick: one cell per requested
    PID, in request order; `raws i` is the `request_pid` result for the
    i-th PID of the tick. -/
def live_tick_csv_values (pid_specs : List (String × ℕ × String))
    (raws : ℕ → Option (List ℕ)) : List String :=
  pid_specs.enum.map (fun x => live_cell x.2.1 x.2.2.2 (raws x.1))

/-- The `line_parts` list built by one tick for the console:
    `f"{label}={display}"` per PID. -/
def live_tick_line_parts (pid_specs : List (String × ℕ × String))
    (raws : ℕ → Option (List ℕ)) : List String :=
  pid_specs.enum.map
    (fun x => x.2.1 ++ "=" ++ live_cell x.2.1 x.2.2.2 (raws x.1))

/-- CSV-file actions of `live_read_loop`: writing one row, or flushing. -/
inductive CsvEvent where
  | row (cells : List String)
  | flush
deriving DecidableEq

/-- Predicate picking out row writes. -/
def CsvEvent.isRow : CsvEvent → Bool
  | CsvEvent.row _ => true
  | CsvEvent.flush => false

/-- The header row: `['timestamp'] + [lbl for (lbl, _, _) in pid_specs]`. -/
def csv_header (pid_specs : List (String × ℕ × String)) : List String :=
  "timestamp" :: pid_specs.map (fun x => x.1)

/-- One tick of `live_read_loop` is abstracted as its timestamp string
    together with the per-position `request_pid` results. -/
def LiveTick : Type := String × (ℕ → Option (List ℕ))

/-- CSV actions of the loop body from a given `header_written` flag:
    on each tick with an active CSV destination, write the header first
    if it has not been written, then write the data row and flush. -/
def live_csv_aux (pid_specs : List (String × ℕ × String)) :
    Bool → List LiveTick → List CsvEvent
  | _, [] => []
  | header_written, tk :: rest =>
      (if header_written then [] else [CsvEvent.row (csv_header pid_specs)])
        ++ [CsvEvent.row (tk.1 :: live_tick_csv_values pid_specs tk.2),
            CsvEvent.flush]
        ++ live_csv_aux pid_specs true rest

/-- CSV actions of a whole `live_read_loop` session with an active CSV
    destination: the loop starts with `header_written = False`. -/
def live_csv_events (pid_specs : List (String × ℕ × String))
    (ticks : List LiveTick) : List CsvEvent :=
  live_csv_aux pid_specs false ticks

/- ===== DTC log writer (src/main.py, lines 35-48) ===== -/

/-- The `"-" * 40` separator. -/
def log_separator : String := String.mk (List.replicate 40 '-')

/-- Embedding of `log_dtcs(dtcs, log_file)`: the text appended to the
    log file, given the formatted timestamp.  The guard
    `if not dtcs or not log_file: return` exits before writing anything
    when the DTC list is empty, which makes the
    `f.write("Aucun DTC trouvé\n")` branch unreachable. -/
def log_dtcs (dtcs : List String) (log_file : Bool) (timestamp : String) :
    String :=
  if dtcs = [] ∨ log_file = false then ""
  else
    "\n=== Scan DTC - " ++ timestamp ++ " ===\n"
      ++ (if dtcs ≠ [] then
            "DTC trouvés: " ++ String.intercalate ", " dtcs ++ "\n"
          else "Aucun DTC trouvé\n")
      ++ log_separator ++ "\n"

/- ===== Control flow of main (src/main.py, lines 386-501) ===== -/

/-- The command-line switches that steer the transport-facing control
    flow of `main` (after the transport opened successfully).  `pids` is
    the raw `--pids` string, resolved through `parse_pid_list` exactly
    as in the source; the remaining arguments (interface, IDs, timeout,
    interval, duration, file paths) do not affect which transport
    operations happen. -/
structure MainArgs where
  live : Bool
  noScan : Bool
  clear : Bool
  pending : Bool
  freeze : Bool
  pids : String

/-- How the run ends: normal return, `sys.exit(1)` (no response on the
    mandatory DTC read), or `sys.exit(2)` (no valid PID for a live
    session). -/
inductive MainExit where
  | normal
  | exit1
  | exit2
deriving DecidableEq

/-- Transport-facing actions of `main`: submitting one request payload
    (one `isotp_request` call), or `bus.shutdown()`. -/
inductive MEvent where
  | send (payload : List ℕ)
  | shutdown
deriving DecidableEq

/-- The Mode 04 clear block (lines 479-497): guarded by
    `args.clear or args.no_scan`, and inside that by
    `dtcs or args.no_scan`. -/
def clear_events (args : MainArgs) (dtcs : List String) : List MEvent :=
  if args.clear ∨ args.noScan then
    if dtcs ≠ [] ∨ args.noScan then [MEvent.send [0x04]] else []
  else []

/-- Mode 01 requests issued by `live_read_loop`: per tick, one
    `[0x01, pid]` exchange per resolved PID, in request order. -/
def live_loop_sends (pid_specs : List (String × ℕ × String))
    (ticks : ℕ) : List (List ℕ) :=
  (List.replicate ticks (pid_specs.map (fun x => [0x01, x.2.1]))).flatten

/-- Transport-facing run of `main` after a successful transport open.
    `oracle` gives the response (or timeout) of each exchange by its
    request payload; `ticks` is how many live-loop iterations complete;
    `cancel` is `some k` when a `KeyboardInterrupt` lands after `k`
    live-loop exchanges (the `finally` still runs `bus.shutdown()`).
    The fatal paths call `sys.exit` directly, which bypasses
    `bus.shutdown()` in the source. -/
def mainModel (args : MainArgs) (oracle : List ℕ → Option (List ℕ))
    (ticks : ℕ) (cancel : Option ℕ) : MainExit × List MEvent :=
  if args.live then
    match parse_pid_list args.pids with
    | [] => (MainExit.exit2, [])
    | p :: ps =>
        let reqs := live_loop_sends (p :: ps) ticks
        let reqs := match cancel with
          | some k => reqs.take k
          | none => reqs
        (MainExit.normal, reqs.map MEvent.send ++ [MEvent.shutdown])
  else
    if args.noScan then
      (MainExit.normal, clear_events args [] ++ [MEvent.shutdown])
    else
      match oracle [0x03] with
      | none => (MainExit.exit1, [MEvent.send [0x03]])
      | some resp =>
          let dtcs := decode_obd_dtc resp
          (MainExit.normal,
            MEvent.send [0x03]
              :: ((if args.pending then [MEvent.send [0x07]] else [])
                  ++ (if args.freeze then [MEvent.send [0x02, 0x02]] else [])
                  ++ clear_events args dtcs
                  ++ [MEvent.shutdown]))

/-- Transport whose response is complete immediately: every
    availability check succeeds and `recv` returns `[0x43]`. -/
def tr_always : Transport Unit :=
  ⟨fun _ => (), fun _ => true, fun _ => [0x43]⟩

/-- The concrete timeout 1/200 s (5 ms), built structurally so that it
    evaluates by kernel reduction. -/
def t_small : ℚ := ⟨1, 200, by norm_num, by norm_num⟩

/-- Transport that never reports availability. -/
def tr_never : Transport Unit :=
  ⟨fun _ => (), fun _ => false, fun _ => []⟩

/-- The rows written by a sequence of CSV actions, in order. -/
def csv_rows (evs : List CsvEvent) : List (List String) :=
  evs.filterMap (fun e =>
    match e with
    | CsvEvent.row cells => some cells
    | CsvEvent.flush => none)

/-- MainArgs with everything off except a mandatory scan. -/
def args_scan_only : MainArgs :=
  ⟨false, false, false, false, false, "rpm"⟩

/- ===== Shared helper lemmas ===== -/

set_option maxRecDepth 4000 in
/-- Bridge from Python's bit operations to arithmetic on byte values. -/
lemma byte_field_arith : ∀ b < 256,
    (b &&& 0xC0) >>> 6 = b / 64 ∧ (b &&& 0x30) >>> 4 = b / 16 % 4 ∧
    b &&& 0x0F = b % 16 ∧ (b &&& 0xF0) >>> 4 = b / 16 := by decide

/-- The decimal rendering of a nibble value consists of digit
    characters only. -/
lemma repr_all_digits : ∀ d < 16,
    ((Nat.repr d).data.all Char.isDigit) = true := by decide

/-- The decimal rendering of a value below ten is a single character. -/
lemma repr_length_one : ∀ d < 10, (Nat.repr d).data.length = 1 := by decide

/-- The decimal rendering of a nibble value of ten or more is two
    characters. -/
lemma repr_length_two : ∀ d < 16, 10 ≤ d → (Nat.repr d).data.length = 2 := by
  decide

/-- Character list of a decoded DTC string, as the concatenation of its
    five pieces. -/
lemma decode_dtc_pair_data (b1 b2 : ℕ) :
    (decode_dtc_pair b1 b2).data
      = (sys_code_map ((b1 &&& 0xC0) >>> 6)).data
        ++ (Nat.repr ((b1 &&& 0x30) >>> 4)).data
        ++ (Nat.repr (b1 &&& 0x0F)).data
        ++ (Nat.repr ((b2 &&& 0xF0) >>> 4)).data
        ++ (Nat.repr (b2 &&& 0x0F)).data := by
  simp [decode_dtc_pair, String.data_append]

/-- For an index below four, `sys_code_map` yields the one-letter string
    of the spec's category table. -/
lemma sys_code_map_data (b : ℕ) (h : b < 256) :
    (sys_code_map (b / 64)).data = [specCategoryChar b] ∧
    (specCategoryChar b = 'P' ∨ specCategoryChar b = 'C' ∨
      specCategoryChar b = 'B' ∨ specCategoryChar b = 'U') := by
  have h4 : b / 64 = 0 ∨ b / 64 = 1 ∨ b / 64 = 2 ∨ b / 64 = 3 := by omega
  rcases h4 with h4 | h4 | h4 | h4 <;>
    simp [sys_code_map, specCategoryChar, h4]

/- ===== C1: DTC pair decoding ===== -/

/-- C1 (counterexample): the pair `(0x0F, 0x00)` is non-zero, yet its
    decode `"P01500"` has six characters (the low nibble 15 renders as
    two decimal digits), so it does not match `[PCBU]\d4`. -/
theorem C1_counterexample :
    ((0x0F : ℕ) ≠ 0 ∨ (0x00 : ℕ) ≠ 0) ∧
    decode_dtc_pair 0x0F 0x00 = "P01500" ∧
    matchesDTCPattern (decode_dtc_pair 0x0F 0x00) = false := by
  refine ⟨by decide, by decide, by decide⟩

/-- C1 (amended): for every byte pair, the decoded string starts with
    the category letter selected by the top two bits of `b1` and
    continues with decimal digit characters only (the decimal rendering
    of the four bit fields); it matches `[PCBU]\d4` exactly when the
    fields `b1 & 0x0F`, `(b2 & 0xF0) >> 4` and `b2 & 0x0F` are all
    single-digit values (the `(b1 & 0x30) >> 4` field always is) — any
    field of 10..15 renders as two decimal digits, making the code
    longer than five characters and the match fail. -/
theorem C1_amended (b1 b2 : ℕ) (h1 : b1 < 256) (h2 : b2 < 256)
    (hz : b1 ≠ 0 ∨ b2 ≠ 0) :
    (decode_dtc_pair b1 b2).data.head? = some (specCategoryChar b1) ∧
    ((decode_dtc_pair b1 b2).data.tail.all Char.isDigit) = true ∧
    (matchesDTCPattern (decode_dtc_pair b1 b2) = true ↔
      (b1 % 16 < 10 ∧ b2 / 16 < 10 ∧ b2 % 16 < 10)) := by
  obtain ⟨a0, a1, a2, -⟩ := byte_field_arith b1 h1
  obtain ⟨-, -, c2, c3⟩ := byte_field_arith b2 h2
  obtain ⟨hletter, hPCBU⟩ := sys_code_map_data b1 h1
  have hdata : (decode_dtc_pair b1 b2).data
      = specCategoryChar b1
          :: ((Nat.repr (b1 / 16 % 4)).data ++ (Nat.repr (b1 % 16)).data
              ++ (Nat.repr (b2 / 16)).data ++ (Nat.repr (b2 % 16)).data) := by
    rw [decode_dtc_pair_data, a0, a1, a2, c2, c3, hletter]
    simp [List.append_assoc]
  have hdig : ∀ d < 16, ((Nat.repr d).data.all Char.isDigit) = true :=
    repr_all_digits
  refine ⟨by rw [hdata]; rfl, ?_, ?_⟩
  · rw [hdata]
    simp only [List.tail_cons, List.all_append, Bool.and_eq_true]
    exact ⟨⟨⟨hdig _ (by omega), hdig _ (by omega)⟩, hdig _ (by omega)⟩,
      hdig _ (by omega)⟩
  · have hlen : (decode_dtc_pair b1 b2).data.length
        = 1 + ((Nat.repr (b1 / 16 % 4)).data.length
            + (Nat.repr (b1 % 16)).data.length
            + (Nat.repr (b2 / 16)).data.length
            + (Nat.repr (b2 % 16)).data.length) := by
      rw [hdata]
      simp only [List.length_cons, List.length_append]
      omega
    have hlen_ne : (decode_dtc_pair b1 b2).data.length ≠ 5 →
        matchesDTCPattern (decode_dtc_pair b1 b2) = false := by
      intro hne
      have hne2 : (decode_dtc_pair b1 b2).length ≠ 5 := hne
      unfold matchesDTCPattern
      simp [beq_eq_false_iff_ne.mpr hne, hne2]
    have hcases : ∀ d : ℕ, d < 16 →
        (d < 10 ∧ (Nat.repr d).data.length = 1) ∨
        (10 ≤ d ∧ (Nat.repr d).data.length = 2) := by
      intro d hd
      by_cases hc : d < 10
      · exact Or.inl ⟨hc, repr_length_one d hc⟩
      · exact Or.inr ⟨by omega, repr_length_two d hd (by omega)⟩
    constructor
    · intro hm
      have h5 : (decode_dtc_pair b1 b2).data.length = 5 := by
        by_contra hne
        rw [hlen_ne hne] at hm
        exact Bool.false_ne_true hm
      have hl1 := repr_length_one (b1 / 16 % 4) (by omega)
      rcases hcases (b1 % 16) (by omega) with ⟨hA, hLA⟩ | ⟨hA, hLA⟩ <;>
        rcases hcases (b2 / 16) (by omega) with ⟨hB, hLB⟩ | ⟨hB, hLB⟩ <;>
          rcases hcases (b2 % 16) (by omega) with ⟨hC, hLC⟩ | ⟨hC, hLC⟩ <;>
            rw [hlen, hl1, hLA, hLB, hLC] at h5 <;> omega
    · intro hsmall
      obtain ⟨hb1, hb2, hb3⟩ := hsmall
      rw [matchesDTCPattern, hdata]
      have l1 := repr_length_one (b1 / 16 % 4) (by omega)
      have l2 := repr_length_one (b1 % 16) hb1
      have l3 := repr_length_one (b2 / 16) hb2
      have l4 := repr_length_one (b2 % 16) hb3
      have d1 := hdig (b1 / 16 % 4) (by omega)
      have d2 := hdig (b1 % 16) (by omega)
      have d3 := hdig (b2 / 16) (by omega)
      have d4 := hdig (b2 % 16) (by omega)
      rcases hPCBU with h | h | h | h <;>
        simp [h, d1, d2, d3, d4, l1, l2, l3, l4]

/-- C1 (witness): the amended theorem applied at the pair
    `(0x01, 0x33)` (decode `P0133`, matching) and at `(0x01, 0x3A)`
    (low nibble 10, so the match fails). -/
theorem C1_witness :
    (decode_dtc_pair 0x01 0x33).data.head? = some (specCategoryChar 0x01) ∧
    matchesDTCPattern (decode_dtc_pair 0x01 0x33) = true ∧
    matchesDTCPattern (decode_dtc_pair 0x01 0x3A) = false := by
  have h := C1_amended 0x01 0x33 (by decide) (by decide) (Or.inl (by decide))
  have h2 := C1_amended 0x01 0x3A (by decide) (by decide) (Or.inl (by decide))
  refine ⟨h.1, h.2.2.mpr ⟨by decide, by decide, by decide⟩, ?_⟩
  cases hc : matchesDTCPattern (decode_dtc_pair 0x01 0x3A) with
  | false => rfl
  | true => exact absurd ((h2.2.2.mp hc).2.2) (by decide)

/- ===== C2: Mode 03/07 DTC framing ===== -/

/-- The pair-consuming loop equals: chunk the payload two bytes at a
    time (dropping a trailing unpaired byte), drop `(0,0)` filler pairs,
    decode each remaining pair in order. -/
lemma decode_pairs_eq : ∀ l : List ℕ,
    decode_pairs l
      = ((pairsOf l).filter (fun p => !(p.1 == 0 && p.2 == 0))).map
          (fun p => decode_dtc_pair p.1 p.2)
  | [] => rfl
  | [_] => rfl
  | b1 :: b2 :: rest => by
    by_cases h : b1 = 0 ∧ b2 = 0
    · obtain ⟨h1, h2⟩ := h
      subst h1; subst h2
      simp [decode_pairs, pairsOf, decode_pairs_eq rest]
    · have hb : (!(b1 == 0 && b2 == 0)) = true := by
        simpa [Bool.and_eq_true, beq_iff_eq, not_and_or] using
          (not_and_or.mp h)
      rw [show decode_pairs (b1 :: b2 :: rest)
            = (if b1 = 0 ∧ b2 = 0 then [] else [decode_dtc_pair b1 b2])
              ++ decode_pairs rest from rfl,
        if_neg h, decode_pairs_eq rest,
        show pairsOf (b1 :: b2 :: rest) = (b1, b2) :: pairsOf rest from rfl,
        List.filter_cons]
      simp only [hb, if_true, List.map_cons]
      simp

/-- C2: the Mode 03/07 decoder returns `[]` on an empty response or a
    first byte other than `0x43`/`0x47`; otherwise it consumes the
    remaining bytes two at a time, skips `(0,0)` filler pairs, ignores a
    trailing unpaired byte, and decodes every other pair in order; and
    the two concrete responses of the claim decode as stated. -/
theorem C2_mode03_07_framing :
    decode_obd_dtc [] = [] ∧
    (∀ b0 payload, b0 ≠ 0x43 → b0 ≠ 0x47 →
      decode_obd_dtc (b0 :: payload) = []) ∧
    (∀ b0 payload, b0 = 0x43 ∨ b0 = 0x47 →
      decode_obd_dtc (b0 :: payload)
        = ((pairsOf payload).filter (fun p => !(p.1 == 0 && p.2 == 0))).map
            (fun p => decode_dtc_pair p.1 p.2)) ∧
    decode_obd_dtc [0x43, 0x01, 0x33, 0x00, 0x00] = ["P0133"] ∧
    decode_obd_dtc [0x47, 0x00, 0x00] = [] := by
  refine ⟨rfl, ?_, ?_, by decide, by decide⟩
  · intro b0 payload h43 h47
    simp [decode_obd_dtc, h43, h47]
  · intro b0 payload h
    simp [decode_obd_dtc, h, decode_pairs_eq]

/-- C2 (witness): the theorem applied at the concrete rejected first
    byte `0x44` and at an accepted Mode 03 response with a trailing
    unpaired byte. -/
theorem C2_witness :
    decode_obd_dtc [0x44, 0x01, 0x33] = [] ∧
    decode_obd_dtc [0x43, 0x01, 0x33, 0x02] = ["P0133"] := by
  constructor
  · exact C2_mode03_07_framing.2.1 0x44 [0x01, 0x33] (by decide) (by decide)
  · have h := C2_mode03_07_framing.2.2.1 0x43 [0x01, 0x33, 0x02]
      (Or.inl rfl)
    rw [h]; decide

/- ===== C3: freeze-frame DTC decoding ===== -/

/-- C3 (counterexample): `[0x42, 0x02, 0x03, 0x01]` does not decode to
    `["B0301"]` — the top two bits of `0x03` are `00`, which selects
    category `P`, so the decode is `["P0301"]`. -/
theorem C3_counterexample :
    decode_freeze_frame_dtc [0x42, 0x02, 0x03, 0x01] ≠ ["B0301"] ∧
    decode_freeze_frame_dtc [0x42, 0x02, 0x03, 0x01] = ["P0301"] := by
  refine ⟨by decide, by decide⟩

/-- C3 (amended): a response shorter than four bytes, or with a header
    other than `[0x42, 0x02]`, or whose third and fourth bytes are both
    zero, decodes to `[]` (no exception — the decoder is total);
    otherwise it decodes to the one code of bytes three and four; and
    `[0x42, 0x02, 0x03, 0x01]` decodes to `["P0301"]` while
    `[0x42, 0x02, 0x00, 0x00]` decodes to `[]`. -/
theorem C3_amended (data_bytes : List ℕ) :
    (data_bytes.length < 4 → decode_freeze_frame_dtc data_bytes = []) ∧
    (∀ m p b1 b2 rest, data_bytes = m :: p :: b1 :: b2 :: rest →
      ((m ≠ 0x42 ∨ p ≠ 0x02) → decode_freeze_frame_dtc data_bytes = []) ∧
      (b1 = 0 → b2 = 0 → decode_freeze_frame_dtc data_bytes = []) ∧
      (m = 0x42 → p = 0x02 → ¬(b1 = 0 ∧ b2 = 0) →
        decode_freeze_frame_dtc data_bytes = [decode_dtc_pair b1 b2])) ∧
    decode_freeze_frame_dtc [0x42, 0x02, 0x03, 0x01] = ["P0301"] ∧
    decode_freeze_frame_dtc [0x42, 0x02, 0x00, 0x00] = [] := by
  refine ⟨?_, ?_, by decide, by decide⟩
  · intro hlen
    match data_bytes, hlen with
    | [], _ => rfl
    | [_], _ => rfl
    | [_, _], _ => rfl
    | [_, _, _], _ => rfl
    | _ :: _ :: _ :: _ :: _, hlen => exact absurd hlen (by simp)
  · intro m p b1 b2 rest hshape
    subst hshape
    refine ⟨?_, ?_, ?_⟩
    · intro hhdr
      simp [decode_freeze_frame_dtc, hhdr]
    · intro h1 h2
      subst h1; subst h2
      simp [decode_freeze_frame_dtc]
    · intro hm hp hz
      subst hm; subst hp
      simp [decode_freeze_frame_dtc, hz]

/-- C3 (witness): the amended theorem applied at the concrete responses
    `[0x42, 0x02, 0x03, 0x01]` (one code) and a short response. -/
theorem C3_witness :
    decode_freeze_frame_dtc [0x42, 0x02, 0x03] = [] ∧
    decode_freeze_frame_dtc [0x42, 0x02, 0x03, 0x01]
      = [decode_dtc_pair 0x03 0x01] := by
  constructor
  · exact (C3_amended [0x42, 0x02, 0x03]).1 (by decide)
  · exact ((C3_amended [0x42, 0x02, 0x03, 0x01]).2.1 0x42 0x02 0x03 0x01 []
      rfl).2.2 rfl rfl (by decide)

/- ===== C4: PID decode formulas ===== -/

/-- Python's `(a << 8) | b` equals `a * 256 + b` when `b` is a byte. -/
lemma shift8_lor_eq (a b : ℕ) (hb : b < 256) : a <<< 8 ||| b = a * 256 + b := by
  apply Nat.eq_of_testBit_eq
  intro i
  have h256 : (256 : ℕ) = 2 ^ 8 := by norm_num
  rw [Nat.testBit_or, Nat.testBit_shiftLeft, h256, Nat.mul_comm]
  rw [Nat.testBit_mul_pow_two_add a (h256 ▸ hb) i]
  by_cases h : i < 8
  · simp [h, Nat.not_le_of_lt h]
  · have hb' : b < 2 ^ i :=
      lt_of_lt_of_le (h256 ▸ hb) (Nat.pow_le_pow_right (by norm_num) (by omega))
    simp [h, Nat.testBit_lt_two_pow hb', Nat.le_of_not_lt h]

/-- C4: each registered decode returns `none` on a payload shorter than
    its required byte count and otherwise computes exactly the table
    formula; in particular the `rpm` decode of `[0x1A, 0xF8]` is
    `1726.0` and the `throttle` decode of `[0xFF]` is `100.0`. -/
theorem C4_pid_decode_formulas :
    (∀ d : List ℕ, d.length < 1 → coolant_decode d = none) ∧
    (∀ (A : ℕ) rest, coolant_decode (A :: rest) = some ((A : ℚ) - 40)) ∧
    (∀ d : List ℕ, d.length < 1 → intake_temp_decode d = none) ∧
    (∀ (A : ℕ) rest, intake_temp_decode (A :: rest) = some ((A : ℚ) - 40)) ∧
    (∀ d : List ℕ, d.length < 1 → stft1_decode d = none) ∧
    (∀ (A : ℕ) rest,
      stft1_decode (A :: rest) = some (((A : ℚ) - 128) / 1.28)) ∧
    (∀ d : List ℕ, d.length < 1 → ltft1_decode d = none) ∧
    (∀ (A : ℕ) rest,
      ltft1_decode (A :: rest) = some (((A : ℚ) - 128) / 1.28)) ∧
    (∀ d : List ℕ, d.length < 2 → rpm_decode d = none) ∧
    (∀ (A B : ℕ) rest, B < 256 →
      rpm_decode (A :: B :: rest) = some (((A : ℚ) * 256 + B) / 4)) ∧
    (∀ d : List ℕ, d.length < 1 → speed_decode d = none) ∧
    (∀ (A : ℕ) rest, speed_decode (A :: rest) = some (A : ℚ)) ∧
    (∀ d : List ℕ, d.length < 2 → maf_decode d = none) ∧
    (∀ (A B : ℕ) rest, B < 256 →
      maf_decode (A :: B :: rest) = some (((A : ℚ) * 256 + B) / 100)) ∧
    (∀ d : List ℕ, d.length < 1 → throttle_decode d = none) ∧
    (∀ (A : ℕ) rest,
      throttle_decode (A :: rest) = some ((A : ℚ) * 100 / 255)) ∧
    decode_pid_value "rpm" [0x1A, 0xF8] = some 1726 ∧
    decode_pid_value "throttle" [0xFF] = some 100 := by
  refine ⟨?_, ?_, ?_, ?_, ?_, ?_, ?_, ?_, ?_, ?_, ?_, ?_, ?_, ?_, ?_, ?_,
    ?_, ?_⟩
  · intro d h; simp only [coolant_decode]; rw [if_neg (by omega)]
  · intro A rest; simp [coolant_decode]
  · intro d h; simp only [intake_temp_decode]; rw [if_neg (by omega)]
  · intro A rest; simp [intake_temp_decode]
  · intro d h; simp only [stft1_decode]; rw [if_neg (by omega)]
  · intro A rest; simp [stft1_decode]
  · intro d h; simp only [ltft1_decode]; rw [if_neg (by omega)]
  · intro A rest; simp [ltft1_decode]
  · intro d h; simp only [rpm_decode]; rw [if_neg (by omega)]
  · intro A B rest hB
    have e0 : (A :: B :: rest).getD 0 0 = A := rfl
    have e1 : (A :: B :: rest).getD 1 0 = B := rfl
    simp only [rpm_decode]
    rw [if_pos (by simp), e0, e1, shift8_lor_eq A B hB]
    push_cast
    ring_nf
  · intro d h; simp only [speed_decode]; rw [if_neg (by omega)]
  · intro A rest; simp [speed_decode]
  · intro d h; simp only [maf_decode]; rw [if_neg (by omega)]
  · intro A B rest hB
    have e0 : (A :: B :: rest).getD 0 0 = A := rfl
    have e1 : (A :: B :: rest).getD 1 0 = B := rfl
    simp only [maf_decode]
    rw [if_pos (by simp), e0, e1, shift8_lor_eq A B hB]
    push_cast
    ring_nf
  · intro d h; simp only [throttle_decode]; rw [if_neg (by omega)]
  · intro A rest; simp [throttle_decode]
  · simp [decode_pid_value, PID_DEFS, rpm_decode, List.lookup]
    try norm_num
  · simp [decode_pid_value, PID_DEFS, throttle_decode, List.lookup]
    try norm_num

/-- C4 (witness): the theorem applied at the claim's concrete payloads,
    with the byte bound discharged at `0xF8`. -/
theorem C4_witness :
    rpm_decode [0x1A, 0xF8] = some (((0x1A : ℚ) * 256 + 0xF8) / 4) ∧
    rpm_decode [0x1A] = none ∧
    coolant_decode [] = none := by
  refine ⟨C4_pid_decode_formulas.2.2.2.2.2.2.2.2.2.1 0x1A 0xF8 [] (by decide),
    C4_pid_decode_formulas.2.2.2.2.2.2.2.2.1 [0x1A] (by decide),
    C4_pid_decode_formulas.1 [] (by decide)⟩

/- ===== C5: bounded-timeout exchange ===== -/

/-- The polling loop never submits a payload: `stack.send` happens
    exactly once, before the loop. -/
lemma isotp_loop_no_send {σ : Type} (tr : Transport σ) :
    ∀ (n : ℕ) (s : σ), ((isotp_loop tr n s).2.2.filter TEvent.isSend) = []
  | 0, _ => rfl
  | n + 1, s => by
    cases h : tr.available (tr.process s) <;>
      simp [isotp_loop, h, TEvent.isSend, isotp_loop_no_send tr n]

/-- If the transport never reports availability within the budget, the
    loop returns `none` after exactly one tick per budgeted iteration. -/
lemma isotp_loop_none {σ : Type} (tr : Transport σ) :
    ∀ (n : ℕ) (s : σ),
      (∀ k, k < n → tr.available ((tr.process)^[k + 1] s) = false) →
      (isotp_loop tr n s).1 = none ∧
      (isotp_loop tr n s).2.2 = List.replicate n TEvent.tick
  | 0, _, _ => ⟨rfl, rfl⟩
  | n + 1, s, h => by
    have h0 : tr.available (tr.process s) = false := by
      simpa using h 0 (by omega)
    have hrec := isotp_loop_none tr n (tr.process s) (fun k hk => by
      have hx := h (k + 1) (by omega)
      rwa [Function.iterate_succ_apply] at hx)
    simp [isotp_loop, h0, hrec.1, hrec.2, List.replicate_succ]

/-- If the loop returns a response, it is the one retrieved at the
    first iteration whose post-tick state reported availability, and
    that iteration is within the budget. -/
lemma isotp_loop_some {σ : Type} (tr : Transport σ) :
    ∀ (n : ℕ) (s : σ) (r : List ℕ), (isotp_loop tr n s).1 = some r →
      ∃ k, k < n ∧ tr.available ((tr.process)^[k + 1] s) = true ∧
        (∀ j, j < k → tr.available ((tr.process)^[j + 1] s) = false) ∧
        r = tr.recv ((tr.process)^[k + 1] s)
  | 0, s, r, h => by simp [isotp_loop] at h
  | n + 1, s, r, h => by
    cases havail : tr.available (tr.process s)
    · have hrec : (isotp_loop tr n (tr.process s)).1 = some r := by
        simpa [isotp_loop, havail] using h
      obtain ⟨k, hk, h1, h2, h3⟩ := isotp_loop_some tr n (tr.process s) r hrec
      refine ⟨k + 1, by omega, ?_, ?_, ?_⟩
      · rwa [Function.iterate_succ_apply]
      · intro j hj
        match j with
        | 0 => simpa using havail
        | j + 1 =>
          rw [Function.iterate_succ_apply]
          exact h2 j (by omega)
      · rwa [Function.iterate_succ_apply]
    · have hr : r = tr.recv (tr.process s) := by
        have := h
        simp [isotp_loop, havail] at this
        exact this.symm
      refine ⟨0, by omega, by simpa using havail, by omega, by simpa using hr⟩

/-- The loop performs at most one tick per budgeted iteration. -/
lemma isotp_loop_tick_bound {σ : Type} (tr : Transport σ) :
    ∀ (n : ℕ) (s : σ),
      ((isotp_loop tr n s).2.2.filter TEvent.isTick).length ≤ n
  | 0, _ => by simp [isotp_loop]
  | n + 1, s => by
    cases h : tr.available (tr.process s)
    · have := isotp_loop_tick_bound tr n (tr.process s)
      simp only [isotp_loop, h]
      simp [TEvent.isTick]
      omega
    · simp [isotp_loop, h, TEvent.isTick]

/-- A positive timeout gives an iteration budget of at least one: the
    first loop test sees an elapsed time of zero, which is below any
    positive timeout. -/
lemma numIters_pos (t : ℚ) (h : 0 < t) : 1 ≤ numIters t := by
  have hnum : 0 < t.num := Rat.num_pos.mpr h
  have hden : (0 : ℤ) < (t.den : ℤ) := by exact_mod_cast t.pos
  have hge : 1 * (t.den : ℤ) ≤ 100 * t.num + t.den - 1 := by nlinarith
  have hdiv : 1 ≤ (100 * t.num + (t.den : ℤ) - 1) / (t.den : ℤ) :=
    (Int.le_ediv_iff_mul_le hden).mpr hge
  unfold numIters
  omega

/-- With a non-zero iteration budget the loop body runs at least once:
    its event trace contains a tick. -/
lemma isotp_loop_mem_tick {σ : Type} (tr : Transport σ) :
    ∀ (n : ℕ) (s : σ), 1 ≤ n → TEvent.tick ∈ (isotp_loop tr n s).2.2 := by
  intro n s hn
  match n, hn with
  | m + 1, _ =>
    cases hav : tr.available (tr.process s) <;> simp [isotp_loop, hav]

/-- A non-positive timeout gives a zero iteration budget. -/
lemma numIters_eq_zero (t : ℚ) (h : t ≤ 0) : numIters t = 0 := by
  have hnum : t.num ≤ 0 := Rat.num_nonpos.mpr h
  have hden : (0 : ℤ) < (t.den : ℤ) := by exact_mod_cast t.pos
  have hlt : 100 * t.num + (t.den : ℤ) - 1 < 1 * (t.den : ℤ) := by nlinarith
  have hdiv : (100 * t.num + (t.den : ℤ) - 1) / (t.den : ℤ) < 1 :=
    Int.ediv_lt_of_lt_mul hden (by linarith)
  unfold numIters
  omega

/-- C5 (counterexample): with a timeout of 5 ms — positive but smaller
    than the 10 ms tick interval — the exchange does enter the wait
    loop, and returns the available response rather than absence. -/
theorem C5_counterexample :
    t_small = 1 / 200 ∧ (0 : ℚ) < t_small ∧ t_small < 1 / 100 ∧
    (isotp_request tr_always () [0x03] t_small).1 = some [0x43] ∧
    (isotp_request tr_always () [0x03] t_small).2.2.filter TEvent.isTick
      ≠ [] := by
  have he : t_small = 1 / 200 := by
    unfold t_small
    rw [Rat.mk'_eq_divInt, Rat.divInt_eq_div]
    norm_num
  refine ⟨he, by rw [he]; norm_num, by rw [he]; norm_num, by decide, by decide⟩

/-- C5 (amended): the exchange submits the payload exactly once (and
    first); if no response becomes available at any iteration within
    the timeout budget it returns absence with no retry; a returned
    response is the one retrieved at the first iteration whose
    availability check succeeded; a non-positive timeout returns
    absence without entering the wait loop; a positive timeout — even
    one below the 10 ms tick interval — enters the wait loop at least
    once; and the number of loop iterations is bounded by
    `⌈timeout / 0.01⌉`, so the call never blocks indefinitely.  (The original claim's "any timeout smaller
    than one tick interval returns absence" clause fails: a positive
    timeout below 10 ms still enters the loop once, see the
    counterexample.) -/
theorem C5_amended {σ : Type} (tr : Transport σ) (s : σ) (payload : List ℕ)
    (timeout : ℚ) :
    ((isotp_request tr s payload timeout).2.2.filter TEvent.isSend
        = [TEvent.send payload]) ∧
    ((isotp_request tr s payload timeout).2.2.head?
        = some (TEvent.send payload)) ∧
    ((∀ k, k < numIters timeout →
        tr.available ((tr.process)^[k + 1] s) = false) →
      (isotp_request tr s payload timeout).1 = none) ∧
    (∀ r, (isotp_request tr s payload timeout).1 = some r →
      ∃ k, k < numIters timeout ∧
        tr.available ((tr.process)^[k + 1] s) = true ∧
        (∀ j, j < k → tr.available ((tr.process)^[j + 1] s) = false) ∧
        r = tr.recv ((tr.process)^[k + 1] s)) ∧
    (timeout ≤ 0 →
      (isotp_request tr s payload timeout).1 = none ∧
      (isotp_request tr s payload timeout).2.2 = [TEvent.send payload]) ∧
    (((isotp_request tr s payload timeout).2.2.filter TEvent.isTick).length
        ≤ numIters timeout) ∧
    (0 < timeout →
      1 ≤ ((isotp_request tr s payload
        timeout).2.2.filter TEvent.isTick).length) := by
  refine ⟨?_, ?_, ?_, ?_, ?_, ?_, ?_⟩
  · simp [isotp_request, TEvent.isSend, isotp_loop_no_send tr]
  · simp [isotp_request]
  · intro h
    exact (isotp_loop_none tr (numIters timeout) s h).1
  · intro r h
    exact isotp_loop_some tr (numIters timeout) s r h
  · intro ht
    have h0 := numIters_eq_zero timeout ht
    constructor
    · show (isotp_loop tr (numIters timeout) s).1 = none
      rw [h0]; rfl
    · show TEvent.send payload :: (isotp_loop tr (numIters timeout) s).2.2
        = [TEvent.send payload]
      rw [h0]; rfl
  · simp only [isotp_request]
    simp [TEvent.isTick, isotp_loop_tick_bound tr]
  · intro ht
    have hmem : TEvent.tick ∈ (isotp_loop tr (numIters timeout) s).2.2 :=
      isotp_loop_mem_tick tr (numIters timeout) s (numIters_pos timeout ht)
    have hmem2 : TEvent.tick ∈
        ((isotp_request tr s payload timeout).2.2.filter TEvent.isTick) := by
      show TEvent.tick ∈ (TEvent.send payload
        :: (isotp_loop tr (numIters timeout) s).2.2).filter TEvent.isTick
      exact List.mem_filter.mpr ⟨List.mem_cons_of_mem _ hmem, rfl⟩
    exact List.length_pos.mpr (List.ne_nil_of_mem hmem2)

/-- C5 (witness): the amended theorem on a silent transport — at
    timeout `0`, absence, a single send, no loop iteration; at timeout
    `1`, at least one loop iteration. -/
theorem C5_witness :
    (isotp_request tr_never () [0x03] 0).1 = none ∧
    (isotp_request tr_never () [0x03] 0).2.2 = [TEvent.send [0x03]] ∧
    (isotp_request tr_never () [0x03] 0).2.2.filter TEvent.isSend
      = [TEvent.send [0x03]] ∧
    1 ≤ ((isotp_request tr_never () [0x03] 1).2.2.filter
      TEvent.isTick).length := by
  have h := C5_amended tr_never () [0x03] 0
  have h5 := h.2.2.2.2.1 (le_refl 0)
  have hpos := (C5_amended tr_never () [0x03] 1).2.2.2.2.2.2 one_pos
  exact ⟨h5.1, h5.2, h.1, hpos⟩

/- ===== C6: CSV emission of the live loop ===== -/

/-- Once the header flag is set, the loop writes exactly one data row
    per tick and nothing else. -/
lemma live_csv_aux_rows_true (pid_specs : List (String × ℕ × String)) :
    ∀ ticks : List LiveTick,
      csv_rows (live_csv_aux pid_specs true ticks)
        = ticks.map (fun tk => tk.1 :: live_tick_csv_values pid_specs tk.2)
  | [] => rfl
  | tk :: rest => by
    have hrec := live_csv_aux_rows_true pid_specs rest
    simp only [csv_rows, List.filterMap_cons, List.filterMap_append] at hrec ⊢
    simp [live_csv_aux, hrec]

/-- Row sequence of a session with at least one tick: the header
    exactly once, first, followed by one data row per tick in order. -/
lemma live_csv_events_rows (pid_specs : List (String × ℕ × String))
    (ticks : List LiveTick) (h : ticks ≠ []) :
    csv_rows (live_csv_events pid_specs ticks)
      = csv_header pid_specs
          :: ticks.map (fun tk => tk.1 :: live_tick_csv_values pid_specs tk.2) := by
  match ticks, h with
  | tk :: rest, _ =>
    have hrest := live_csv_aux_rows_true pid_specs rest
    simp only [csv_rows, List.filterMap_cons, List.filterMap_append] at hrest ⊢
    simp only [live_csv_events, live_csv_aux, Bool.false_eq_true, if_false,
      List.filterMap_cons, List.filterMap_append] at hrest ⊢
    simp [hrest]

/-- One flush per tick, regardless of the header flag. -/
lemma live_csv_aux_flush_count (pid_specs : List (String × ℕ × String)) :
    ∀ (ticks : List LiveTick) (hw : Bool),
      (live_csv_aux pid_specs hw ticks).count CsvEvent.flush = ticks.length
  | [], _ => rfl
  | tk :: rest, hw => by
    cases hw <;>
      simp [live_csv_aux, List.count_cons, List.count_append,
        live_csv_aux_flush_count pid_specs rest true, CsvEvent.isRow,
        List.count_eq_zero, csv_header]

/-- The last CSV action of a non-empty session is a flush. -/
lemma live_csv_aux_last_flush (pid_specs : List (String × ℕ × String)) :
    ∀ (ticks : List LiveTick) (hw : Bool), ticks ≠ [] →
      (live_csv_aux pid_specs hw ticks).getLast? = some CsvEvent.flush
  | tk :: rest, hw, _ => by
    cases hre : rest with
    | nil => cases hw <;> simp [live_csv_aux]
    | cons r rs =>
      have hrec := live_csv_aux_last_flush pid_specs rest true (by simp [hre])
      have hne : live_csv_aux pid_specs true rest ≠ [] := by
        rw [hre]
        cases hb : live_csv_aux pid_specs true (r :: rs) with
        | nil => simp [live_csv_aux] at hb
        | cons x xs => simp
      rw [hre] at hrec hne
      rw [live_csv_aux, List.append_assoc,
        List.getLast?_append_of_ne_nil _ (by simp [hne]),
        List.getLast?_append_of_ne_nil _ hne]
      exact hrec

/-- C6: in a session with an active CSV destination and at least one
    tick, the row sequence is the header (timestamp then the PID labels
    in request order) exactly once, first, followed by exactly one data
    row per tick in the same column order; every row has `1 + number of
    PIDs` columns; there is one flush per tick; and every row write is
    followed by a later flush. -/
theorem C6_csv_emission (pid_specs : List (String × ℕ × String))
    (ticks : List LiveTick) (h : ticks ≠ []) :
    (csv_rows (live_csv_events pid_specs ticks)
        = csv_header pid_specs
            :: ticks.map
              (fun tk => tk.1 :: live_tick_csv_values pid_specs tk.2)) ∧
    (∀ row ∈ csv_rows (live_csv_events pid_specs ticks),
      row.length = 1 + pid_specs.length) ∧
    ((live_csv_events pid_specs ticks).count CsvEvent.flush
        = ticks.length) ∧
    (∀ i (hi : i < (live_csv_events pid_specs ticks).length),
      ((live_csv_events pid_specs ticks).get ⟨i, hi⟩).isRow = true →
      ∃ j, ∃ hj : j < (live_csv_events pid_specs ticks).length,
        i < j ∧
        (live_csv_events pid_specs ticks).get ⟨j, hj⟩ = CsvEvent.flush) := by
  refine ⟨live_csv_events_rows pid_specs ticks h, ?_,
    live_csv_aux_flush_count pid_specs ticks false, ?_⟩
  · rw [live_csv_events_rows pid_specs ticks h]
    intro row hrow
    rcases List.mem_cons.mp hrow with hr | hr
    · subst hr
      simp [csv_header]
      omega
    · obtain ⟨tk, -, htk⟩ := List.mem_map.mp hr
      subst htk
      simp [live_tick_csv_values]
      omega
  · intro i hi hrow
    have hlast : (live_csv_events pid_specs ticks).getLast?
        = some CsvEvent.flush :=
      live_csv_aux_last_flush pid_specs ticks false h
    have hlen : 0 < (live_csv_events pid_specs ticks).length := by
      cases hevs : live_csv_events pid_specs ticks with
      | nil => rw [hevs] at hlast; simp at hlast
      | cons x xs => simp [hevs]
    have hget : (live_csv_events pid_specs ticks).get
        ⟨(live_csv_events pid_specs ticks).length - 1, by omega⟩
          = CsvEvent.flush := by
      have h2 := List.getLast?_eq_getElem? (live_csv_events pid_specs ticks)
      rw [hlast, List.getElem?_eq_getElem (by omega)] at h2
      have h3 := Option.some.inj h2
      simpa [List.get_eq_getElem] using h3.symm
    refine ⟨(live_csv_events pid_specs ticks).length - 1, by omega, ?_, hget⟩
    by_contra hcon
    push_neg at hcon
    have hieq : i = (live_csv_events pid_specs ticks).length - 1 := by omega
    have heq : (⟨i, hi⟩ :
        Fin (live_csv_events pid_specs ticks).length)
          = ⟨(live_csv_events pid_specs ticks).length - 1, by omega⟩ := by
      apply Fin.ext
      simpa using hieq
    rw [heq, hget] at hrow
    simp [CsvEvent.isRow] at hrow

/-- C6 (witness): a one-PID, one-tick session where the PID query
    returned nothing: the header row and one `NA` data row, each with
    two columns, and one flush. -/
theorem C6_witness :
    csv_rows (live_csv_events [("rpm", 0x0C, "rpm")] [("T", fun _ => none)])
      = [["timestamp", "rpm"], ["T", "NA"]] ∧
    (live_csv_events [("rpm", 0x0C, "rpm")]
        [("T", fun _ => none)]).count CsvEvent.flush = 1 := by
  have h := C6_csv_emission [("rpm", 0x0C, "rpm")] [("T", fun _ => none)]
    (by simp)
  constructor
  · rw [h.1]; rfl
  · simpa using h.2.2.1

/- ===== C7: DTC log block format ===== -/

/-- C7: evaluation of `log_dtcs` at an empty and a non-empty DTC list.
    With codes present, the appended block is the timestamped header
    line, the comma-joined code line, and the 40-character separator
    line, as the claim states; but with an empty decoded list the
    function writes nothing at all — the early return
    `if not dtcs or not log_file: return` makes the
    "Aucun DTC trouvé" ("no codes found") branch unreachable — so no
    "no codes found" line is ever produced. -/
theorem C7_log_block :
    log_dtcs [] true "2025-01-01 12:00:00" = "" ∧
    log_dtcs ["P0133", "C1234"] true "2025-01-01 12:00:00"
      = "\n=== Scan DTC - 2025-01-01 12:00:00 ===\n"
          ++ "DTC trouvés: P0133, C1234\n" ++ log_separator ++ "\n" ∧
    log_separator.length = 40 := by
  refine ⟨rfl, by decide, by decide⟩

/- ===== C8: transport shutdown on exit paths ===== -/

/-- A list of send events contains no shutdown. -/
lemma count_shutdown_map_send (l : List (List ℕ)) :
    (l.map MEvent.send).count MEvent.shutdown = 0 := by
  rw [List.count_eq_zero]
  intro hmem
  obtain ⟨p, -, hp⟩ := List.mem_map.mp hmem
  exact MEvent.noConfusion hp

/-- A truncated list of send events contains no shutdown either. -/
lemma count_shutdown_take_map_send (k : ℕ) (l : List (List ℕ)) :
    ((l.map MEvent.send).take k).count MEvent.shutdown = 0 := by
  rw [List.count_eq_zero]
  intro hmem
  obtain ⟨p, -, hp⟩ := List.mem_map.mp (List.mem_of_mem_take hmem)
  exact MEvent.noConfusion hp

/-- An event list ending in a shutdown has it as its last element. -/
lemma getLast?_cons_append_shutdown (x : MEvent) (l : List MEvent) :
    (x :: (l ++ [MEvent.shutdown])).getLast? = some MEvent.shutdown := by
  rw [show x :: (l ++ [MEvent.shutdown])
      = (x :: l) ++ [MEvent.shutdown] from rfl]
  exact List.getLast?_concat _

/-- The clear block never shuts the bus down. -/
lemma count_shutdown_clear_events (args : MainArgs) (dtcs : List String) :
    (clear_events args dtcs).count MEvent.shutdown = 0 := by
  unfold clear_events
  split_ifs <;> simp

/-- C8 (counterexample): when the mandatory Mode 03 read gets no
    response, `main` runs `sys.exit(1)` directly — the run ends with
    the one Mode 03 send and no `bus.shutdown()` at all, contradicting
    "released exactly once on every exit path". -/
theorem C8_counterexample :
    (mainModel args_scan_only (fun _ => none) 0 none).1 = MainExit.exit1 ∧
    (mainModel args_scan_only (fun _ => none) 0 none).2
      = [MEvent.send [0x03]] ∧
    (mainModel args_scan_only (fun _ => none) 0 none).2.count
      MEvent.shutdown = 0 := by
  refine ⟨rfl, rfl, rfl⟩

/-- C8 (amended): on every normally-completing path — live loop
    (completed or cancelled) and scan/clear runs whose mandatory read
    got a response — the transport is shut down exactly once, as the
    last transport action (after all exchanges); but on the two
    `sys.exit` paths (no response on the mandatory DTC read, no valid
    PID for a live session) no shutdown happens at all. -/
theorem C8_amended (args : MainArgs) (oracle : List ℕ → Option (List ℕ))
    (ticks : ℕ) (cancel : Option ℕ) :
    ((mainModel args oracle ticks cancel).1 = MainExit.normal →
      (mainModel args oracle ticks cancel).2.count MEvent.shutdown = 1 ∧
      (mainModel args oracle ticks cancel).2.getLast?
        = some MEvent.shutdown) ∧
    ((mainModel args oracle ticks cancel).1 ≠ MainExit.normal →
      (mainModel args oracle ticks cancel).2.count MEvent.shutdown = 0) := by
  unfold mainModel
  by_cases hlive : args.live = true
  · simp only [hlive, if_true]
    cases hp : parse_pid_list args.pids with
    | nil =>
      refine ⟨fun hnormal => absurd hnormal (by simp), fun _ => rfl⟩
    | cons p ps =>
      refine ⟨fun _ => ⟨?_, ?_⟩, fun hne => absurd rfl hne⟩
      · cases cancel <;>
          simp [List.count_append, count_shutdown_map_send,
            count_shutdown_take_map_send]
      · cases cancel <;> exact List.getLast?_concat _
  · simp only [hlive, if_false, Bool.not_eq_true] at *
    simp only [hlive, Bool.false_eq_true, if_false]
    by_cases hns : args.noScan = true
    · simp only [hns, if_true]
      refine ⟨fun _ => ⟨?_, List.getLast?_concat _⟩, fun hne => absurd rfl hne⟩
      simp [List.count_append, count_shutdown_clear_events]
    · simp only [hns, Bool.not_eq_true] at *
      simp only [hns, Bool.false_eq_true, if_false]
      cases ho : oracle [0x03] with
      | none =>
        refine ⟨fun hnormal => absurd hnormal (by simp), fun _ => rfl⟩
      | some resp =>
        refine ⟨fun _ => ⟨?_, ?_⟩, fun hne => absurd rfl hne⟩
        · split_ifs <;>
            simp [List.count_cons, List.count_append,
              count_shutdown_clear_events]
        · exact getLast?_cons_append_shutdown _ _

/-- C8 (witness): the amended theorem on a completed scan-only run —
    one shutdown, last. -/
theorem C8_witness :
    (mainModel args_scan_only (fun _ => some [0x43, 0x01, 0x33]) 0
        none).2.count MEvent.shutdown = 1 ∧
    (mainModel args_scan_only (fun _ => some [0x43, 0x01, 0x33]) 0
        none).2.getLast? = some MEvent.shutdown := by
  have h := C8_amended args_scan_only (fun _ => some [0x43, 0x01, 0x33]) 0 none
  exact h.1 (by rfl)

/- ===== C9: numeric-literal PIDs always render as NA ===== -/

/-- A generated label starts with the letter `p`. -/
lemma pid_prefix_head (s : String) :
    ("pid_0x" ++ s).data.head? = some 'p' := by
  rw [String.data_append]
  rfl

/-- No registry key starts with `p`, so a generated `pid_0x..` label is
    never found in `PID_DEFS`. -/
lemma lookup_pid_prefix_none (s : String) :
    PID_DEFS.lookup ("pid_0x" ++ s) = none := by
  have hne : ∀ t : String, t.data.head? ≠ some 'p' →
      (("pid_0x" ++ s) == t) = false := by
    intro t ht
    apply beq_eq_false_iff_ne.mpr
    intro hEq
    exact ht (hEq ▸ pid_prefix_head s)
  simp [PID_DEFS, List.lookup,
    hne "coolant" (by decide), hne "rpm" (by decide),
    hne "speed" (by decide), hne "intake_temp" (by decide),
    hne "maf" (by decide), hne "throttle" (by decide),
    hne "stft1" (by decide), hne "ltft1" (by decide)]

/-- C9: an item given as a numeric literal resolves to the generated
    label `pid_0xNN` with an empty unit; that label is never in the
    registry, so `decode_pid_value` returns no value for every raw
    payload — even a well-formed one — and the live loop renders the
    PID as `NA` in the CSV cell and as `label=NA` on the console. -/
theorem C9_numeric_pid_renders_NA :
    (∀ it pid, PID_DEFS.lookup (py_lower it) = none →
      int_of_string it = some pid →
      parse_pid_item it = some (pid_label pid, pid, "")) ∧
    (∀ (pid : ℕ) (raw : List ℕ),
      decode_pid_value (pid_label pid) raw = none) ∧
    (∀ (pid : ℕ) (raw : Option (List ℕ)),
      live_cell (pid_label pid) "" raw = "NA") ∧
    (∀ (pid : ℕ) (raw : Option (List ℕ)),
      pid_label pid ++ "=" ++ live_cell (pid_label pid) "" raw
        = pid_label pid ++ "=NA") := by
  have hlookup : ∀ pid : ℕ, PID_DEFS.lookup (pid_label pid) = none := by
    intro pid
    exact lookup_pid_prefix_none _
  have hdecode : ∀ (pid : ℕ) (raw : List ℕ),
      decode_pid_value (pid_label pid) raw = none := by
    intro pid raw
    unfold decode_pid_value
    rw [hlookup pid]
  have hcell : ∀ (pid : ℕ) (raw : Option (List ℕ)),
      live_cell (pid_label pid) "" raw = "NA" := by
    intro pid raw
    cases raw with
    | none => rfl
    | some r =>
      show display_of (decode_pid_value (pid_label pid) r) "" = "NA"
      rw [hdecode pid r]
      rfl
  refine ⟨?_, hdecode, hcell, ?_⟩
  · intro it pid h1 h2
    simp only [parse_pid_item, h1, h2]
  · intro pid raw
    rw [hcell pid raw, String.append_assoc]
    rfl

/-- C9 (witness): the literal `"0x1B"` resolves to `pid_0x1B`, whose
    decode is `none` and whose rendering is `NA` even on a well-formed
    two-byte payload. -/
theorem C9_witness :
    parse_pid_item "0x1B" = some (pid_label 27, 27, "") ∧
    decode_pid_value (pid_label 27) [0x12, 0x34] = none ∧
    live_cell (pid_label 27) "" (some [0x12, 0x34]) = "NA" := by
  have h := C9_numeric_pid_renders_NA
  exact ⟨h.1 "0x1B" 27 rfl (by decide),
    h.2.1 27 [0x12, 0x34], h.2.2.1 27 (some [0x12, 0x34])⟩

/- ===== C10: no Mode 04 clear after an empty scan ===== -/

/-- C10: with the clear flag set and the no-scan flag unset, when the
    mandatory Mode 03 read returns a response that decodes to zero
    DTCs, `main` never submits a Mode 04 clear request. -/
theorem C10_no_clear_on_empty_scan (args : MainArgs)
    (oracle : List ℕ → Option (List ℕ)) (ticks : ℕ) (cancel : Option ℕ)
    (resp : List ℕ)
    (hlive : args.live = false) (hns : args.noScan = false)
    (hclear : args.clear = true)
    (hresp : oracle [0x03] = some resp)
    (hdtcs : decode_obd_dtc resp = []) :
    MEvent.send [0x04] ∉ (mainModel args oracle ticks cancel).2 := by
  unfold mainModel
  rw [hlive, hns, hresp]
  simp only [Bool.false_eq_true, if_false]
  have hclr : clear_events args (decode_obd_dtc resp) = [] := by
    unfold clear_events
    rw [hdtcs, hns]
    simp
  rw [hclr]
  intro hmem
  split_ifs at hmem <;> simp at hmem

/-- C10 (witness): a clear-flagged run whose scan response
    `[0x43, 0x00, 0x00]` holds only filler — no Mode 04 request in the
    event trace. -/
theorem C10_witness :
    MEvent.send [0x04] ∉ (mainModel ⟨false, false, true, true, true, "rpm"⟩
      (fun _ => some [0x43, 0x00, 0x00]) 0 none).2 := by
  exact C10_no_clear_on_empty_scan ⟨false, false, true, true, true, "rpm"⟩
    (fun _ => some [0x43, 0x00, 0x00]) 0 none [0x43, 0x00, 0x00]
    rfl rfl rfl rfl (by decide)
